import Mathlib

/-!
Verification development for the SOR (Standard OTDR Record) binary parser.

The definitions below are a shallow embedding of the parser source
(sor-parser/scripts/sor_parser.py).  Byte buffers are modelled as
`List Nat` (one entry per byte), the mutable reader object as an explicit
`SORReader` state that is threaded through every operation, and reads that
can raise a Python `struct.error` return `Except SORError`.  Python floats
are modelled as exact rationals (the decimal literals of the source are
taken at face value); `round(x, 3)` is modelled as exact round-half-to-even
at three decimal places.  The derived ISO timestamp string (a host calendar
library call) and the fixed note string of the DataPts decoder are display
only and are not modelled.
-/

/-- Error raised by a reader operation.  `truncated` models the Python
`struct.error` raised by `struct.unpack_from` when fewer bytes remain than
the field width.  `fuelOut` is the sentinel of the fuel-indexed model of
the map-decoder loop; it never occurs for sufficient fuel. -/
inductive SORError where
  | truncated
  | fuelOut
deriving DecidableEq, Repr

/-- The binary reader: an immutable byte buffer plus a cursor position. -/
structure SORReader where
  data : List Nat
  pos : Nat
deriving DecidableEq, Repr

/-- Two-complement reinterpretation of a `bits`-wide unsigned value. -/
def toSigned (bits : Nat) (v : Nat) : Int :=
  if v < 2 ^ (bits - 1) then (v : Int) else (v : Int) - 2 ^ bits

/-- Model of `read_uint16`: little-endian 16-bit read via
`struct.unpack_from`, which raises when fewer than 2 bytes remain. -/
def read_uint16 (r : SORReader) : Except SORError (Nat × SORReader) :=
  if r.pos + 2 ≤ r.data.length then
    .ok (r.data.getD r.pos 0 + 256 * r.data.getD (r.pos + 1) 0,
         ⟨r.data, r.pos + 2⟩)
  else
    .error .truncated

/-- Model of `read_uint32`: little-endian 32-bit read. -/
def read_uint32 (r : SORReader) : Except SORError (Nat × SORReader) :=
  if r.pos + 4 ≤ r.data.length then
    .ok (r.data.getD r.pos 0 + 256 * r.data.getD (r.pos + 1) 0
          + 65536 * r.data.getD (r.pos + 2) 0
          + 16777216 * r.data.getD (r.pos + 3) 0,
         ⟨r.data, r.pos + 4⟩)
  else
    .error .truncated

/-- Model of `read_int16`: signed little-endian 16-bit read. -/
def read_int16 (r : SORReader) : Except SORError (Int × SORReader) :=
  match read_uint16 r with
  | .ok (v, r') => .ok (toSigned 16 v, r')
  | .error e => .error e

/-- Model of `read_int32`: signed little-endian 32-bit read. -/
def read_int32 (r : SORReader) : Except SORError (Int × SORReader) :=
  match read_uint32 r with
  | .ok (v, r') => .ok (toSigned 32 v, r')
  | .error e => .error e

/-- Index of the first zero byte of a list, or its length when no zero
byte occurs; models `bytes.index` restricted to the suffix searched. -/
def nulIndex : List Nat → Nat
  | [] => 0
  | b :: rest => if b = 0 then 0 else nulIndex rest + 1

/-- Absolute index at which the string read of `read_string` stops: the
first zero byte at or after `pos`, or the buffer length when none exists
(the `ValueError` branch of the source). -/
def strEnd (d : List Nat) (pos : Nat) : Nat :=
  min pos d.length + nulIndex (d.drop pos)

/-- Model of `read_string`: scan to the first NUL byte (or end of buffer),
decode the intervening bytes as latin-1, and place the cursor one past
the terminator.  This operation never fails. -/
def read_string (r : SORReader) : String × SORReader :=
  let e := strEnd r.data r.pos
  (String.mk (((r.data.take e).drop r.pos).map Char.ofNat), ⟨r.data, e + 1⟩)

/-- Model of `read_bytes`: a Python slice `data[pos:pos+n]`, which silently
yields fewer bytes when fewer remain; the cursor advances by `n` always. -/
def read_bytes (r : SORReader) (n : Nat) : List Nat × SORReader :=
  ((r.data.take (r.pos + n)).drop r.pos, ⟨r.data, r.pos + n⟩)

/-- Model of `seek`: absolute cursor positioning. -/
def seek (r : SORReader) (p : Nat) : SORReader :=
  ⟨r.data, p⟩

/-- Model of `remaining`: bytes left until `limit` (may be negative). -/
def remaining (r : SORReader) (limit : Nat) : Int :=
  (limit : Int) - (r.pos : Int)

/-- The FIBER_TYPES table of the source. -/
def FIBER_TYPES : List (Nat × String) :=
  [(651, "G.651 (multimode)"),
   (652, "G.652 (standard SM)"),
   (653, "G.653 (dispersion-shifted)"),
   (654, "G.654 (cut-off shifted)"),
   (655, "G.655 (NZ-DSF)"),
   (656, "G.656 (wideband NZ-DSF)"),
   (657, "G.657 (bend-insensitive)")]

/-- The BUILD_CONDITIONS table of the source. -/
def BUILD_CONDITIONS : List (String × String) :=
  [("BC", "as-built"),
   ("CC", "as-current"),
   ("RC", "as-repaired"),
   ("OT", "other")]

/-- The TRACE_TYPES table of the source. -/
def TRACE_TYPES : List (String × String) :=
  [("ST", "standard"),
   ("RT", "reverse"),
   ("DT", "difference"),
   ("RF", "reference")]

/-- Python `dict.get(k, dflt)` on a literal table with distinct keys. -/
def tableGet {α β : Type} [DecidableEq α] (t : List (α × β)) (k : α) (dflt : β) : β :=
  match t.find? (fun p => p.1 = k) with
  | some p => p.2
  | none => dflt

deriving instance DecidableEq for Except

/-- Round half to even, the rounding mode of Python `round`. -/
def round_half_even (x : ℚ) : ℤ :=
  let f := ⌊x⌋
  let frac := x - (f : ℚ)
  if frac < 1 / 2 then f
  else if 1 / 2 < frac then f + 1
  else if f % 2 = 0 then f else f + 1

/-- Python `round(x, 3)` over the rational model of floats. -/
def pyRound3 (x : ℚ) : ℚ :=
  (round_half_even (x * 1000) : ℚ) / 1000

/-- Model of `_time_to_distance`: one-way distance in meters from
time-of-travel in 100 ps units, using the group index (defaulted when
non-positive), rounded to 3 decimal places. -/
def time_to_distance (time_100ps : Nat) (group_index : ℚ) : ℚ :=
  let g := if group_index ≤ 0 then 146850 / 100000 else group_index
  let c : ℚ := 299792458
  let time_s : ℚ := (time_100ps : ℚ) * (1 / 10000000000)
  pyRound3 (time_s * c / (2 * g))

/-- The three description parts contributed by characters 0, 1 and 6 of an
event-type code, in source order; each contributes zero or one part. -/
def eventTypeParts (cs : List Char) : List String :=
  (match cs.get? 0 with
   | some c =>
     if c = '0' then ["non-reflective"]
     else if c = '1' then ["reflective"]
     else if c = '2' then ["saturated reflective"]
     else []
   | none => [])
  ++ (match cs.get? 1 with
      | some c =>
        if c = 'F' then ["end-of-fiber"]
        else if c = 'A' then ["added-by-user"]
        else if c = 'O' then ["found-by-OTDR"]
        else if c = 'M' then ["moved-by-user"]
        else []
      | none => [])
  ++ (match cs.get? 6 with
      | some c =>
        if c = 'L' then ["launch-fiber"]
        else if c = 'T' then ["tail-fiber"]
        else []
      | none => [])

/-- Model of `_describe_event_type`: codes shorter than 2 characters yield
"unknown"; otherwise the recognized parts are joined with a comma, and
when no part is recognized the raw code string itself is returned. -/
def describe_event_type (event_type : String) : String :=
  if event_type.data.length < 2 then "unknown"
  else
    let ds := eventTypeParts event_type.data
    if ds.isEmpty then event_type else String.intercalate ", " ds

/-- Map directory entry, as accumulated by `parse_map`. -/
structure BlockEntry where
  name : String
  version : Nat
  size : Nat
deriving DecidableEq, Repr

/-- Map entry with its computed absolute byte offset (the `offset` key
the orchestrator adds to each entry dict). -/
structure BlockInfo where
  name : String
  version : Nat
  size : Nat
  offset : Nat
deriving DecidableEq, Repr

/-- The entry-reading loop of `parse_map`, indexed by fuel.  The source
loop runs `while pos < start + nbytes`; the fuel bound is a modelling
device only, and `parse_map` supplies enough fuel that the `fuelOut`
sentinel is unreachable (proved below). -/
def mapLoop (limit : Nat) : Nat → SORReader → List BlockEntry → Except SORError (List BlockEntry × SORReader)
  | 0, r, acc => if r.pos < limit then .error .fuelOut else .ok (acc, r)
  | fuel + 1, r, acc =>
    if r.pos < limit then do
      let (name, r) := read_string r
      let (ver, r) ← read_uint16 r
      let (size, r) ← read_uint32 r
      mapLoop limit fuel r (acc ++ [{name, version := ver, size}])
    else
      .ok (acc, r)

/-- Model of `parse_map`: header (version, nbytes, and for v1 an
informational block count), then entries until `nbytes` are consumed. -/
def parse_map (r : SORReader) : Except SORError (List BlockEntry × SORReader) := do
  let start := r.pos
  let (version, r) ← read_uint16 r
  let (nbytes, r) ← read_uint32 r
  let r ← if version < 200 then do
      let (_num_blocks, r) ← read_uint16 r
      pure r
    else pure r
  mapLoop (start + nbytes) (nbytes + 1) r []

/-- Offset assignment of the orchestrator: each block offset is the
running sum of the preceding sizes, starting at 0. -/
def assignOffsets : Nat → List BlockEntry → List BlockInfo
  | _, [] => []
  | off, e :: rest =>
    {name := e.name, version := e.version, size := e.size, offset := off}
      :: assignOffsets (off + e.size) rest

/-- Python dict assignment `m[k] = v`: overwrite the value in place when
the key exists, append otherwise. -/
def dictInsert (m : List (String × BlockInfo)) (k : String) (v : BlockInfo) : List (String × BlockInfo) :=
  match m with
  | [] => [(k, v)]
  | (k', v') :: rest => if k' = k then (k, v) :: rest else (k', v') :: dictInsert rest k v

/-- The block_map dict of the orchestrator, built by iterated assignment. -/
def buildBlockMap (bs : List BlockInfo) : List (String × BlockInfo) :=
  bs.foldl (fun m b => dictInsert m b.name b) []

/-- Python dict lookup on the association-list model. -/
def dictGet? (m : List (String × BlockInfo)) (k : String) : Option BlockInfo :=
  match m with
  | [] => none
  | (k', v) :: rest => if k' = k then some v else dictGet? rest k

/-- Last entry of the list carrying the given name; the specification-side
characterization that the block_map lookup is compared against. -/
def lastWithName (k : String) : List BlockInfo → Option BlockInfo
  | [] => none
  | b :: rest =>
    match lastWithName k rest with
    | some x => some x
    | none => if b.name = k then some b else none

/-- Equipment identification fields of the SupParams block. -/
structure SupParams where
  supplier_name : String
  otdr_mainframe_id : String
  otdr_mainframe_sn : String
  optical_module_id : String
  optical_module_sn : String
  software_revision : String
  other : String
deriving DecidableEq, Repr

/-- Model of `parse_sup_params`: seven consecutive strings.  This decoder
performs no fallible read, hence cannot fail. -/
def parse_sup_params (r : SORReader) (version : Nat) (block_end : Nat) : SupParams × SORReader :=
  let (supplier_name, r) := read_string r
  let (otdr_mainframe_id, r) := read_string r
  let (otdr_mainframe_sn, r) := read_string r
  let (optical_module_id, r) := read_string r
  let (optical_module_sn, r) := read_string r
  let (software_revision, r) := read_string r
  let (other, r) := read_string r
  ({supplier_name, otdr_mainframe_id, otdr_mainframe_sn, optical_module_id,
    optical_module_sn, software_revision, other}, r)

/-- Cable and fiber identification fields of the GenParams block. -/
structure GenParams where
  language_code : String
  cable_id : String
  fiber_id : String
  fiber_type : Nat
  fiber_type_name : String
  wavelength_nm : Nat
  location_a : String
  location_b : String
  cable_code : String
  build_condition : String
  build_condition_name : String
  user_offset_100ps : Int
  user_offset_distance_01m : Option Int
  operator_name : String
  comment : String
deriving DecidableEq, Repr

/-- Model of `parse_gen_params` (the "operator" key is rendered here as
`operator_name`). -/
def parse_gen_params (r : SORReader) (version : Nat) (block_end : Nat) :
    Except SORError (GenParams × SORReader) := do
  let (language_code, r) := read_string r
  let (cable_id, r) := read_string r
  let (fiber_id, r) := read_string r
  let (fiber_type, r) ← read_uint16 r
  let fiber_type_name := tableGet FIBER_TYPES fiber_type ("unknown (" ++ Nat.repr fiber_type ++ ")")
  let (wavelength_nm, r) ← read_uint16 r
  let (location_a, r) := read_string r
  let (location_b, r) := read_string r
  let (cable_code, r) := read_string r
  let (build_condition, r) := read_string r
  let build_condition_name := tableGet BUILD_CONDITIONS build_condition build_condition
  let (user_offset_100ps, r) ← read_int32 r
  let (user_offset_distance_01m, r) ←
    if version ≥ 200 then do
      let (v, r) ← read_int32 r
      pure (some v, r)
    else pure ((none : Option Int), r)
  let (operator_name, r) := read_string r
  let (comment, r) := read_string r
  pure ({language_code, cable_id, fiber_id, fiber_type, fiber_type_name,
         wavelength_nm, location_a, location_b, cable_code, build_condition,
         build_condition_name, user_offset_100ps, user_offset_distance_01m,
         operator_name, comment}, r)

/-- Acquisition parameter fields of the FxdParams block.  The derived ISO
timestamp string is display only and not modelled (host calendar). -/
structure FxdParams where
  timestamp : Nat
  units_of_distance : String
  actual_wavelength_nm : Nat
  acquisition_offset_100ps : Int
  acquisition_offset_distance_01m : Option Int
  num_pulse_widths : Nat
  pulse_widths_ns : List Nat
  data_spacing_100ps : List Nat
  num_data_points : List Nat
  group_index : ℚ
  backscatter_coefficient_dB : ℚ
  number_of_averages : Nat
  averaging_time_s : Nat
  range_100ps : Nat
  range_km : Option ℚ
  acquisition_range_distance_01m : Option Int
  front_panel_offset_100ps : Int
  noise_floor_level : Nat
  noise_floor_scale_factor : Nat
  power_offset_first_point : Nat
  loss_threshold_dB : ℚ
  reflectance_threshold_dB : ℚ
  end_of_fiber_threshold_dB : ℚ
  trace_type : Option String
  trace_type_name : Option String
deriving DecidableEq, Repr

/-- A Python list comprehension of `n` successive reads. -/
def readRepeat (f : SORReader → Except SORError (Nat × SORReader)) :
    Nat → SORReader → Except SORError (List Nat × SORReader)
  | 0, r => .ok ([], r)
  | n + 1, r => do
    let (v, r) ← f r
    let (vs, r) ← readRepeat f n r
    pure (v :: vs, r)

/-- Model of `parse_fixed_params`. -/
def parse_fixed_params (r : SORReader) (version : Nat) (block_end : Nat) :
    Except SORError (FxdParams × SORReader) := do
  let (timestamp, r) ← read_uint32 r
  let (units_of_distance, r) := read_string r
  let (actual_wavelength_nm, r) ← read_uint16 r
  let (acquisition_offset_100ps, r) ← read_int32 r
  let (acquisition_offset_distance_01m, r) ←
    if version ≥ 200 then do
      let (v, r) ← read_int32 r
      pure (some v, r)
    else pure ((none : Option Int), r)
  let (num_pulse_widths, r) ← read_uint16 r
  let (pulse_widths_ns, r) ← readRepeat read_uint16 num_pulse_widths r
  let (data_spacing_100ps, r) ← readRepeat read_uint32 num_pulse_widths r
  let (num_data_points, r) ← readRepeat read_uint32 num_pulse_widths r
  let (group_index_raw, r) ← read_uint32 r
  let group_index : ℚ := (group_index_raw : ℚ) / 100000
  let (backscatter, r) ← read_uint16 r
  let (number_of_averages, r) ← read_uint32 r
  let (averaging_time_s, r) ← read_uint16 r
  let (range_val, r) ← read_uint32 r
  let range_km : Option ℚ := if range_val ≠ 0 then some ((range_val : ℚ) * (1 / 1000000)) else none
  let (acquisition_range_distance_01m, r) ←
    if version ≥ 200 then do
      let (v, r) ← read_int32 r
      pure (some v, r)
    else pure ((none : Option Int), r)
  let (front_panel_offset_100ps, r) ← read_int32 r
  let (noise_floor_level, r) ← read_uint16 r
  let (noise_floor_scale_factor, r) ← read_uint16 r
  let (power_offset_first_point, r) ← read_uint16 r
  let (loss_thr, r) ← read_uint16 r
  let (refl_thr, r) ← read_uint16 r
  let (eof_thr, r) ← read_uint16 r
  let (trace_type, trace_type_name, r) :=
    if version ≥ 200 ∧ r.pos + 2 ≤ block_end then
      let (raw, r') := read_bytes r 2
      let s := String.mk (raw.map Char.ofNat)
      (some s, some (tableGet TRACE_TYPES s s), r')
    else ((none : Option String), (none : Option String), r)
  pure ({timestamp, units_of_distance, actual_wavelength_nm,
         acquisition_offset_100ps, acquisition_offset_distance_01m,
         num_pulse_widths, pulse_widths_ns, data_spacing_100ps, num_data_points,
         group_index, backscatter_coefficient_dB := -((backscatter : ℚ) / 10),
         number_of_averages, averaging_time_s, range_100ps := range_val, range_km,
         acquisition_range_distance_01m, front_panel_offset_100ps,
         noise_floor_level, noise_floor_scale_factor, power_offset_first_point,
         loss_threshold_dB := (loss_thr : ℚ) / 1000,
         reflectance_threshold_dB := -((refl_thr : ℚ) / 1000),
         end_of_fiber_threshold_dB := (eof_thr : ℚ) / 1000,
         trace_type, trace_type_name}, r)

/-- One key event record. -/
structure KeyEvent where
  event_number : Nat
  time_of_travel_100ps : Nat
  distance_m : ℚ
  slope_dBkm : ℚ
  splice_loss_dB : ℚ
  reflectance_dB : ℚ
  event_type : String
  event_type_description : String
  end_of_previous_event : Option Nat
  start_of_current_event : Option Nat
  end_of_current_event : Option Nat
  start_of_next_event : Option Nat
  peak_of_current_event : Option Nat
  comment : String
deriving DecidableEq, Repr

/-- KeyEvents block result: the events plus the optional trailing summary
fields. -/
structure KeyEventsRes where
  num_events : Nat
  events : List KeyEvent
  total_loss_dB : Option ℚ := none
  fiber_start_position : Option Int := none
  fiber_length_100ps : Option Nat := none
  fiber_length_m : Option ℚ := none
  fiber_length_01m : Option Int := none
  optical_return_loss_dB : Option ℚ := none
deriving DecidableEq, Repr

/-- Body of the per-event loop of `parse_key_events`. -/
def readOneEvent (version : Nat) (group_index : ℚ) (r : SORReader) :
    Except SORError (KeyEvent × SORReader) := do
  let (event_number, r) ← read_uint16 r
  let (time_of_travel, r) ← read_uint32 r
  let (slope, r) ← read_int16 r
  let (splice_loss, r) ← read_int16 r
  let (reflection, r) ← read_int32 r
  let (event_type, r) := read_string r
  let (v2a, v2b, v2c, v2d, v2e, r) ←
    if version ≥ 200 then do
      let (a, r) ← read_uint32 r
      let (b, r) ← read_uint32 r
      let (c, r) ← read_uint32 r
      let (d, r) ← read_uint32 r
      let (e, r) ← read_uint32 r
      pure (some a, some b, some c, some d, some e, r)
    else pure ((none : Option Nat), (none : Option Nat), (none : Option Nat),
               (none : Option Nat), (none : Option Nat), r)
  let (comment, r) := read_string r
  pure ({event_number, time_of_travel_100ps := time_of_travel,
         distance_m := time_to_distance time_of_travel group_index,
         slope_dBkm := (slope : ℚ) / 1000,
         splice_loss_dB := (splice_loss : ℚ) / 1000,
         reflectance_dB := (reflection : ℚ) / 1000,
         event_type, event_type_description := describe_event_type event_type,
         end_of_previous_event := v2a, start_of_current_event := v2b,
         end_of_current_event := v2c, start_of_next_event := v2d,
         peak_of_current_event := v2e, comment}, r)

/-- The per-event loop of `parse_key_events`, reading `n` events in
order. -/
def readEvents (version : Nat) (group_index : ℚ) :
    Nat → SORReader → Except SORError (List KeyEvent × SORReader)
  | 0, r => .ok ([], r)
  | n + 1, r => do
    let (ev, r) ← readOneEvent version group_index r
    let (evs, r) ← readEvents version group_index n r
    pure (ev :: evs, r)

/-- Final guarded step of the KeyEvents trailing summary: the optical
return loss. -/
def summaryOrl (block_end : Nat) (res : KeyEventsRes) (r : SORReader) : KeyEventsRes × SORReader :=
  if r.pos + 2 ≤ block_end then
    match read_uint16 r with
    | .error _ => (res, r)
    | .ok (orl, r') => ({res with optical_return_loss_dB := some ((orl : ℚ) / 1000)}, r')
  else (res, r)

/-- Version-gated step of the KeyEvents trailing summary: fiber length in
0.1 m units; a failed read aborts the remaining summary silently. -/
def summaryV2 (version block_end : Nat) (res : KeyEventsRes) (r : SORReader) : KeyEventsRes × SORReader :=
  if version ≥ 200 ∧ r.pos + 4 ≤ block_end then
    match read_int32 r with
    | .error _ => (res, r)
    | .ok (v, r') => summaryOrl block_end {res with fiber_length_01m := some v} r'
  else summaryOrl block_end res r

/-- The KeyEvents trailing summary: guarded reads whose internal errors
are caught and suppressed, keeping the fields read so far. -/
def summaryMain (version block_end : Nat) (group_index : ℚ) (res : KeyEventsRes) (r : SORReader) :
    KeyEventsRes × SORReader :=
  if r.pos + 4 ≤ block_end then
    match read_uint32 r with
    | .error _ => (res, r)
    | .ok (total_loss, r1) =>
      let res1 := {res with total_loss_dB := some ((total_loss : ℚ) / 1000)}
      match read_int32 r1 with
      | .error _ => (res1, r1)
      | .ok (fsp, r2) =>
        let res2 := {res1 with fiber_start_position := some fsp}
        match read_uint32 r2 with
        | .error _ => (res2, r2)
        | .ok (fl, r3) =>
          let res3 := {res2 with
                        fiber_length_100ps := some fl
                        fiber_length_m := some (time_to_distance fl group_index)}
          summaryV2 version block_end res3 r3
  else (res, r)

/-- Model of `parse_key_events`. -/
def parse_key_events (r : SORReader) (version : Nat) (block_end : Nat) (group_index : ℚ) :
    Except SORError (KeyEventsRes × SORReader) := do
  let (num_events, r) ← read_uint16 r
  let (events, r) ← readEvents version group_index num_events r
  pure (summaryMain version block_end group_index {num_events, events} r)

/-- DataPts block result; the fixed note string is display only and not
modelled, and the raw samples are intentionally skipped by the source. -/
structure DataPtsRes where
  num_data_points : Nat
  num_traces : Nat
deriving DecidableEq, Repr

/-- Model of `parse_data_pts_summary`. -/
def parse_data_pts_summary (r : SORReader) (version : Nat) (block_end : Nat) :
    Except SORError (DataPtsRes × SORReader) := do
  let (num_points, r) ← read_uint32 r
  let (num_traces, r) ← read_uint16 r
  pure ({num_data_points := num_points, num_traces}, r)

/-- The assembled record of `parse_sor`.  The filename is not part of the
core; a failed sub-block decode is an `Except.error` at the corresponding
key (the error-message dict of the source).  SupParams performs no
fallible read, so its slot is plain. -/
structure SORRecord where
  file_size_bytes : Nat
  blocks_found : List String
  equipment : Option SupParams
  general : Option (Except SORError GenParams)
  acquisition : Option (Except SORError FxdParams)
  key_events : Option (Except SORError KeyEventsRes)
  data_points : Option (Except SORError DataPtsRes)
deriving DecidableEq, Repr

/-- Group index selection of the orchestrator (source lines between the
FxdParams and KeyEvents steps): the decoded value when the acquisition
result holds a truthy positive `group_index`, else the 1.46850 default. -/
def chosen_group_index (acq : Option (Except SORError FxdParams)) : ℚ :=
  match acq with
  | some (.ok a) =>
    if a.group_index ≠ 0 ∧ 0 < a.group_index then a.group_index else 146850 / 100000
  | _ => 146850 / 100000

/-- Model of `parse_sor` on an in-memory buffer: parse the map, compute
offsets, build the name lookup, then decode the five known blocks in the
fixed order, threading the chosen group index into KeyEvents.  Each block
decode starts with an absolute `seek`, so a fresh cursor at the block
offset is equivalent to the threaded mutable reader of the source. -/
def parse_sor (data : List Nat) : Except SORError SORRecord := do
  let (entries, _) ← parse_map ⟨data, 0⟩
  let blocks_info := assignOffsets 0 entries
  let block_map := buildBlockMap blocks_info
  let equipment := (dictGet? block_map "SupParams").map fun b =>
    (parse_sup_params (seek ⟨data, 0⟩ b.offset) b.version (b.offset + b.size)).1
  let general := (dictGet? block_map "GenParams").map fun b =>
    (parse_gen_params (seek ⟨data, 0⟩ b.offset) b.version (b.offset + b.size)).map Prod.fst
  let acquisition := (dictGet? block_map "FxdParams").map fun b =>
    (parse_fixed_params (seek ⟨data, 0⟩ b.offset) b.version (b.offset + b.size)).map Prod.fst
  let group_index := chosen_group_index acquisition
  let key_events := (dictGet? block_map "KeyEvents").map fun b =>
    (parse_key_events (seek ⟨data, 0⟩ b.offset) b.version (b.offset + b.size) group_index).map Prod.fst
  let data_points := (dictGet? block_map "DataPts").map fun b =>
    (parse_data_pts_summary (seek ⟨data, 0⟩ b.offset) b.version (b.offset + b.size)).map Prod.fst
  pure {file_size_bytes := data.length,
        blocks_found := blocks_info.map BlockInfo.name,
        equipment, general, acquisition, key_events, data_points}

/-- Concrete buffer: a v1 map declaring itself (34 bytes) and a SupParams
block of declared size 2, followed by seven NUL-terminated strings. -/
def c1data : List Nat :=
  [100, 0, 34, 0, 0, 0, 2, 0,
   77, 97, 112, 0, 100, 0, 34, 0, 0, 0,
   83, 117, 112, 80, 97, 114, 97, 109, 115, 0, 100, 0, 2, 0, 0, 0,
   65, 0, 66, 0, 67, 0, 68, 0, 69, 0, 70, 0, 71, 0]

/-- Concrete buffer: the minimal v1 file, a map declaring only itself. -/
def c5data : List Nat :=
  [100, 0, 18, 0, 0, 0, 1, 0, 77, 97, 112, 0, 100, 0, 18, 0, 0, 0]

/-- Concrete v1 GenParams block body: empty strings, fiber type 999,
wavelength 1310, build condition "ZZ", user offset 1. -/
def c9data : List Nat :=
  [0, 0, 0, 231, 3, 30, 5, 0, 0, 0, 90, 90, 0, 1, 0, 0, 0, 0, 0]

/-! ### Helper lemmas -/

theorem nulIndex_le_length (l : List Nat) : nulIndex l ≤ l.length := by
  induction l with
  | nil => simp [nulIndex]
  | cons b rest ih =>
    simp only [nulIndex, List.length_cons]
    split
    · omega
    · omega

theorem nulIndex_eq_length (l : List Nat) (h : 0 ∉ l) : nulIndex l = l.length := by
  induction l with
  | nil => rfl
  | cons b rest ih =>
    simp only [List.mem_cons, not_or] at h
    simp only [nulIndex, List.length_cons]
    rw [if_neg (fun hb => h.1 hb.symm)]
    rw [ih h.2]

theorem strEnd_le (d : List Nat) (p : Nat) : strEnd d p ≤ d.length := by
  unfold strEnd
  have h1 := nulIndex_le_length (d.drop p)
  have h2 : (d.drop p).length = d.length - p := List.length_drop p d
  omega

theorem strEnd_cases (d : List Nat) (p : Nat) :
    p ≤ strEnd d p ∨ (strEnd d p = d.length ∧ d.length < p) := by
  unfold strEnd
  rcases le_or_lt p d.length with h | h
  · left
    rw [Nat.min_eq_left h]
    omega
  · right
    have hd : d.drop p = [] := List.drop_eq_nil_of_le (Nat.le_of_lt h)
    rw [hd]
    constructor
    · simp [nulIndex, Nat.min_eq_right (Nat.le_of_lt h)]
    · exact h

theorem read_uint16_ok_pos {r : SORReader} {v : Nat} {r' : SORReader}
    (h : read_uint16 r = .ok (v, r')) :
    r'.data = r.data ∧ r'.pos = r.pos + 2 ∧ r.pos + 2 ≤ r.data.length := by
  unfold read_uint16 at h
  split at h
  · simp only [Except.ok.injEq, Prod.mk.injEq] at h
    rw [← h.2]
    exact ⟨rfl, rfl, by assumption⟩
  · cases h

theorem read_uint32_ok_pos {r : SORReader} {v : Nat} {r' : SORReader}
    (h : read_uint32 r = .ok (v, r')) :
    r'.data = r.data ∧ r'.pos = r.pos + 4 ∧ r.pos + 4 ≤ r.data.length := by
  unfold read_uint32 at h
  split at h
  · simp only [Except.ok.injEq, Prod.mk.injEq] at h
    rw [← h.2]
    exact ⟨rfl, rfl, by assumption⟩
  · cases h

theorem read_int16_ok_pos {r : SORReader} {v : Int} {r' : SORReader}
    (h : read_int16 r = .ok (v, r')) :
    r'.data = r.data ∧ r'.pos = r.pos + 2 ∧ r.pos + 2 ≤ r.data.length := by
  unfold read_int16 at h
  cases hu : read_uint16 r with
  | ok p =>
    rw [hu] at h
    simp only [Except.ok.injEq, Prod.mk.injEq] at h
    obtain ⟨u, ru⟩ := p
    have := read_uint16_ok_pos hu
    rw [← h.2]
    exact this
  | error e => rw [hu] at h; cases h

theorem read_int32_ok_pos {r : SORReader} {v : Int} {r' : SORReader}
    (h : read_int32 r = .ok (v, r')) :
    r'.data = r.data ∧ r'.pos = r.pos + 4 ∧ r.pos + 4 ≤ r.data.length := by
  unfold read_int32 at h
  cases hu : read_uint32 r with
  | ok p =>
    rw [hu] at h
    simp only [Except.ok.injEq, Prod.mk.injEq] at h
    obtain ⟨u, ru⟩ := p
    have := read_uint32_ok_pos hu
    rw [← h.2]
    exact this
  | error e => rw [hu] at h; cases h

theorem read_uint16_error_eq {r : SORReader} {e : SORError}
    (h : read_uint16 r = .error e) : e = .truncated := by
  unfold read_uint16 at h
  split at h
  · cases h
  · cases h; rfl

theorem read_uint32_error_eq {r : SORReader} {e : SORError}
    (h : read_uint32 r = .error e) : e = .truncated := by
  unfold read_uint32 at h
  split at h
  · cases h
  · cases h; rfl

theorem read_string_no_nul (r : SORReader) (hp : r.pos ≤ r.data.length)
    (h : 0 ∉ r.data.drop r.pos) :
    read_string r = (String.mk ((r.data.drop r.pos).map Char.ofNat),
                     ⟨r.data, r.data.length + 1⟩) := by
  have he : strEnd r.data r.pos = r.data.length := by
    unfold strEnd
    rw [nulIndex_eq_length _ h, List.length_drop, Nat.min_eq_left hp]
    omega
  unfold read_string
  dsimp only
  rw [he, List.take_length]

/-! ### Claim C2 -/

/-- C2 (counterexample): `read_bytes` silently returns fewer bytes than
requested.  On the one-byte buffer `[7]`, `read_bytes 2` returns a single
byte and no error, while the cursor still advances by 2. -/
theorem read_bytes_silently_short :
    (read_bytes ⟨[7], 0⟩ 2).1.length = 1
  ∧ (read_bytes ⟨[7], 0⟩ 2).2.pos = 2
  ∧ (read_bytes ⟨[7], 0⟩ 2).1.length ≠ 2 := by decide

/-- C2 (amended): each fixed-width integer read either advances the cursor
by exactly the field width (when enough bytes remain) or fails with
`truncated`; `read_bytes n`, in contrast, always advances the cursor by
`n` and returns the available slice of length `min n (len - pos)`,
silently shorter when fewer bytes remain. -/
theorem typed_reads_exact_or_truncated (r : SORReader) (n : Nat) :
    (r.pos + 2 ≤ r.data.length → ∃ v, read_uint16 r = .ok (v, ⟨r.data, r.pos + 2⟩))
  ∧ (r.data.length < r.pos + 2 → read_uint16 r = .error .truncated)
  ∧ (r.pos + 4 ≤ r.data.length → ∃ v, read_uint32 r = .ok (v, ⟨r.data, r.pos + 4⟩))
  ∧ (r.data.length < r.pos + 4 → read_uint32 r = .error .truncated)
  ∧ (r.pos + 2 ≤ r.data.length → ∃ v, read_int16 r = .ok (v, ⟨r.data, r.pos + 2⟩))
  ∧ (r.data.length < r.pos + 2 → read_int16 r = .error .truncated)
  ∧ (r.pos + 4 ≤ r.data.length → ∃ v, read_int32 r = .ok (v, ⟨r.data, r.pos + 4⟩))
  ∧ (r.data.length < r.pos + 4 → read_int32 r = .error .truncated)
  ∧ (read_bytes r n).2 = ⟨r.data, r.pos + n⟩
  ∧ (read_bytes r n).1.length = min n (r.data.length - r.pos) := by
  refine ⟨?_, ?_, ?_, ?_, ?_, ?_, ?_, ?_, ?_, ?_⟩
  · intro h
    exact ⟨_, by unfold read_uint16; rw [if_pos h]⟩
  · intro h
    unfold read_uint16
    rw [if_neg (by omega)]
  · intro h
    exact ⟨_, by unfold read_uint32; rw [if_pos h]⟩
  · intro h
    unfold read_uint32
    rw [if_neg (by omega)]
  · intro h
    refine ⟨toSigned 16 (r.data.getD r.pos 0 + 256 * r.data.getD (r.pos + 1) 0), ?_⟩
    unfold read_int16 read_uint16
    rw [if_pos h]
  · intro h
    unfold read_int16 read_uint16
    rw [if_neg (by omega)]
  · intro h
    refine ⟨toSigned 32 (r.data.getD r.pos 0 + 256 * r.data.getD (r.pos + 1) 0
      + 65536 * r.data.getD (r.pos + 2) 0 + 16777216 * r.data.getD (r.pos + 3) 0), ?_⟩
    unfold read_int32 read_uint32
    rw [if_pos h]
  · intro h
    unfold read_int32 read_uint32
    rw [if_neg (by omega)]
  · rfl
  · unfold read_bytes
    simp only [List.length_drop, List.length_take]
    omega

/-- C2 (witness): the amended theorem applied at a concrete reader. -/
theorem typed_reads_exact_or_truncated_witness :
    ∃ v, read_uint16 ⟨[1, 2, 3, 4], 0⟩ = .ok (v, ⟨[1, 2, 3, 4], 2⟩) :=
  (typed_reads_exact_or_truncated ⟨[1, 2, 3, 4], 0⟩ 0).1 (by decide)

/-! ### Claim C3 -/

/-- C3 (counterexample): reading a NUL-terminated string from the buffer
`[65]`, which holds no NUL byte, leaves the cursor at position 2, one past
the end of the one-byte buffer — not at end-of-buffer, and in violation of
`pos ≤ len`. -/
theorem read_string_no_nul_pos_exceeds :
    (read_string ⟨[65], 0⟩).2.pos = 2
  ∧ ([65] : List Nat).length = 1
  ∧ ¬ ((read_string ⟨[65], 0⟩).2.pos ≤ ([65] : List Nat).length) := by decide

/-- C3 (amended): every successful fixed-width read leaves `pos ≤ len`,
but the cstring reader on a buffer without a NUL terminator after the
cursor decodes the remaining bytes and leaves the cursor at `len + 1`
(one past an imagined terminator at end-of-buffer), exceeding `len`. -/
theorem cursor_bounds_and_cstring_end (r : SORReader) :
    (∀ v r', read_uint16 r = .ok (v, r') → r'.pos ≤ r'.data.length)
  ∧ (∀ v r', read_uint32 r = .ok (v, r') → r'.pos ≤ r'.data.length)
  ∧ (∀ v r', read_int16 r = .ok (v, r') → r'.pos ≤ r'.data.length)
  ∧ (∀ v r', read_int32 r = .ok (v, r') → r'.pos ≤ r'.data.length)
  ∧ (r.pos ≤ r.data.length → 0 ∉ r.data.drop r.pos →
      read_string r = (String.mk ((r.data.drop r.pos).map Char.ofNat),
                       ⟨r.data, r.data.length + 1⟩)) := by
  refine ⟨?_, ?_, ?_, ?_, ?_⟩
  · intro v r' h
    obtain ⟨hd, hp, hb⟩ := read_uint16_ok_pos h
    rw [hd]
    omega
  · intro v r' h
    obtain ⟨hd, hp, hb⟩ := read_uint32_ok_pos h
    rw [hd]
    omega
  · intro v r' h
    obtain ⟨hd, hp, hb⟩ := read_int16_ok_pos h
    rw [hd]
    omega
  · intro v r' h
    obtain ⟨hd, hp, hb⟩ := read_int32_ok_pos h
    rw [hd]
    omega
  · exact read_string_no_nul r

/-- C3 (witness): the amended theorem applied at the buffer `[65]`. -/
theorem cursor_bounds_and_cstring_end_witness :
    read_string ⟨[65], 0⟩ = ("A", (⟨[65], 2⟩ : SORReader)) := by
  have h := (cursor_bounds_and_cstring_end ⟨[65], 0⟩).2.2.2.2 (by decide) (by decide)
  exact h.trans (by decide)

/-! ### Claim C6 -/

/-- C6 (counterexample): the value returned by
`time_to_distance 1_000_000 1.46850` is more than 10000 meters above the
10.207 claimed by the specification scenario, so it is not approximately
10.207. -/
theorem time_to_distance_example_far_from_ten :
    10000 < time_to_distance 1000000 (146850 / 100000) - 10207 / 1000 := by
  norm_num [time_to_distance, pyRound3, round_half_even]

/-- C6 (amended): `time_to_distance 1_000_000 1.46850` equals exactly
10207.438 meters, the value of 1e6 x 1e-10 x 299792458 / (2 x 1.46850)
rounded to 3 decimal places (the scenario text dropped a factor of 1000). -/
theorem time_to_distance_example_value :
    time_to_distance 1000000 (146850 / 100000) = 10207438 / 1000 := by
  norm_num [time_to_distance, pyRound3, round_half_even]

/-! ### Claim C7 -/

/-- C7 (counterexample): on the code "1F000000L" the function does not
return the description with "launch-fiber": index 6 of that string is the
character 0, not L (the L sits at index 8, which the source ignores). -/
theorem describe_event_type_1F000000L_no_launch :
    describe_event_type "1F000000L" ≠ "reflective, end-of-fiber, launch-fiber" := by
  decide

/-- C7 (amended): `describe_event_type "1F000000L"` returns exactly
"reflective, end-of-fiber". -/
theorem describe_event_type_1F000000L :
    describe_event_type "1F000000L" = "reflective, end-of-fiber" := by decide

/-! ### Claim C8 -/

/-- C8 (counterexample): "XYa" and "XYb" agree at indices 0 and 1, both
lack an index 6, both have length at least 2, yet the returned
descriptions differ: when no character is recognized the raw code string
itself is returned, so the result depends on every character. -/
theorem describe_event_type_depends_beyond_016 :
    ("XYa" : String).data.get? 0 = ("XYb" : String).data.get? 0
  ∧ ("XYa" : String).data.get? 1 = ("XYb" : String).data.get? 1
  ∧ ("XYa" : String).data.get? 6 = none
  ∧ ("XYb" : String).data.get? 6 = none
  ∧ 2 ≤ ("XYa" : String).data.length
  ∧ 2 ≤ ("XYb" : String).data.length
  ∧ describe_event_type "XYa" ≠ describe_event_type "XYb" := by decide

/-- C8 (amended): for codes of length at least 2 that agree at indices 0,
1 and 6 (agreement includes both lacking an index 6), the descriptions
coincide provided at least one character is recognized (the parts list is
non-empty); when no character is recognized the raw code passes through. -/
theorem describe_event_type_depends_016 (s t : String)
    (hs : 2 ≤ s.data.length) (ht : 2 ≤ t.data.length)
    (h0 : s.data.get? 0 = t.data.get? 0)
    (h1 : s.data.get? 1 = t.data.get? 1)
    (h6 : s.data.get? 6 = t.data.get? 6)
    (hne : eventTypeParts s.data ≠ []) :
    describe_event_type s = describe_event_type t := by
  have hparts : eventTypeParts s.data = eventTypeParts t.data := by
    unfold eventTypeParts
    rw [h0, h1, h6]
  have hfs : (eventTypeParts s.data).isEmpty = false := by
    cases hp : eventTypeParts s.data with
    | nil => exact absurd hp hne
    | cons a l => rfl
  have hft : (eventTypeParts t.data).isEmpty = false := by
    rw [← hparts]
    exact hfs
  have hs2 : ¬ (s.data.length < 2) := by omega
  have ht2 : ¬ (t.data.length < 2) := by omega
  unfold describe_event_type
  rw [if_neg hs2, if_neg ht2]
  simp only [hparts, hft, Bool.false_eq_true, if_false]

/-- C8 (witness): the amended theorem applied to "1F" and "1F00". -/
theorem describe_event_type_depends_016_witness :
    describe_event_type "1F" = describe_event_type "1F00" :=
  describe_event_type_depends_016 "1F" "1F00" (by decide) (by decide)
    (by decide) (by decide) (by decide) (by decide)

/-! ### Claim C9 -/

theorem tableGet_default {α β : Type} [DecidableEq α] (t : List (α × β)) (k : α) (d : β)
    (h : k ∉ t.map Prod.fst) : tableGet t k d = d := by
  induction t with
  | nil => rfl
  | cons p rest ih =>
    simp only [List.map_cons, List.mem_cons, not_or] at h
    unfold tableGet
    rw [List.find?_cons_of_neg _ (by simpa using fun he => h.1 he.symm)]
    exact ih h.2

/-- C9 (counterexample): a decoded GenParams block with fiber type 999
(outside the mapping) carries `fiber_type_name = "unknown (999)"`, not the
raw value "999"; the build-condition half of the claim does hold (here the
unmapped code "ZZ" passes through). -/
theorem gen_params_unknown_fiber_not_raw :
    ((parse_gen_params ⟨c9data, 0⟩ 100 19).map fun p =>
        (p.1.fiber_type, p.1.fiber_type_name, p.1.build_condition, p.1.build_condition_name))
      = .ok (999, "unknown (999)", "ZZ", "ZZ")
  ∧ "unknown (999)" ≠ "999" := by decide

/-- C9 (amended): in every successfully decoded GenParams block, an
unmapped build-condition code passes through as the raw value in
`build_condition_name`, while an unmapped fiber type yields
`fiber_type_name = "unknown (N)"` with the raw value embedded, not the
raw value itself. -/
theorem gen_params_unknown_names (r : SORReader) (version block_end : Nat)
    (g : GenParams) (r' : SORReader)
    (h : parse_gen_params r version block_end = .ok (g, r')) :
    (g.fiber_type ∉ FIBER_TYPES.map Prod.fst →
       g.fiber_type_name = "unknown (" ++ Nat.repr g.fiber_type ++ ")")
  ∧ (g.build_condition ∉ BUILD_CONDITIONS.map Prod.fst →
       g.build_condition_name = g.build_condition) := by
  unfold parse_gen_params at h
  simp only [bind, Except.bind, pure, Except.pure] at h
  repeat' split at h
  all_goals try (cases h)
  all_goals
    exact ⟨fun hft => tableGet_default _ _ _ hft,
           fun hbc => tableGet_default _ _ _ hbc⟩

/-- C9 (witness): the amended theorem applied to the concrete GenParams
block of `c9data`. -/
theorem gen_params_unknown_names_witness :
    ((parse_gen_params ⟨c9data, 0⟩ 100 19).map fun p => p.1.build_condition_name)
      = .ok "ZZ" := by
  have hbc : ((parse_gen_params ⟨c9data, 0⟩ 100 19).map fun p => p.1.build_condition)
      = .ok "ZZ" := by decide
  cases hp : parse_gen_params ⟨c9data, 0⟩ 100 19 with
  | error e =>
    rw [hp] at hbc
    simp [Except.map] at hbc
  | ok p =>
    obtain ⟨g, r'⟩ := p
    rw [hp] at hbc
    simp only [Except.map] at hbc ⊢
    have hg : g.build_condition = "ZZ" := by simpa using hbc
    have h2 := (gen_params_unknown_names ⟨c9data, 0⟩ 100 19 g r' hp).2
      (by rw [hg]; decide)
    simp [h2, hg]

/-! ### Claim C4 -/

theorem dictGet?_dictInsert_self (m : List (String × BlockInfo)) (k : String) (v : BlockInfo) :
    dictGet? (dictInsert m k v) k = some v := by
  induction m with
  | nil => simp [dictInsert, dictGet?]
  | cons p rest ih =>
    obtain ⟨k', v'⟩ := p
    unfold dictInsert
    split
    · simp [dictGet?]
    · unfold dictGet?
      rw [if_neg (by assumption)]
      exact ih

theorem dictGet?_dictInsert_ne (m : List (String × BlockInfo)) (k k' : String) (v : BlockInfo)
    (h : k' ≠ k) : dictGet? (dictInsert m k' v) k = dictGet? m k := by
  induction m with
  | nil => simp [dictInsert, dictGet?, h]
  | cons p rest ih =>
    obtain ⟨k'', v''⟩ := p
    unfold dictInsert
    split
    · rename_i heq
      unfold dictGet?
      rw [if_neg h, if_neg (heq ▸ h)]
    · unfold dictGet?
      split
      · rfl
      · exact ih

theorem dictGet?_fold (bs : List BlockInfo) :
    ∀ (m : List (String × BlockInfo)) (k : String),
      dictGet? (bs.foldl (fun m b => dictInsert m b.name b) m) k =
        match lastWithName k bs with
        | some x => some x
        | none => dictGet? m k := by
  induction bs with
  | nil => intro m k; rfl
  | cons b rest ih =>
    intro m k
    simp only [List.foldl_cons]
    rw [ih]
    cases hl : lastWithName k rest with
    | some x =>
      unfold lastWithName
      rw [hl]
    | none =>
      unfold lastWithName
      rw [hl]
      by_cases hbk : b.name = k
      · rw [if_pos hbk]
        rw [← hbk, dictGet?_dictInsert_self]
      · rw [if_neg hbk]
        rw [dictGet?_dictInsert_ne _ _ _ _ hbk]

/-- C4 (counterexample): with two map entries of the same name, the
orchestrator lookup returns the second (later) entry, not the first:
Python dict assignment overwrites on duplicate keys. -/
theorem duplicate_name_lookup_keeps_second :
    dictGet? (buildBlockMap [⟨"SupParams", 100, 10, 0⟩, ⟨"SupParams", 200, 20, 10⟩]) "SupParams"
      = some ⟨"SupParams", 200, 20, 10⟩
  ∧ dictGet? (buildBlockMap [⟨"SupParams", 100, 10, 0⟩, ⟨"SupParams", 200, 20, 10⟩]) "SupParams"
      ≠ some ⟨"SupParams", 100, 10, 0⟩ := by decide

/-- C4 (amended): the name-to-descriptor lookup built by the orchestrator
retains, for every name, the last-occurring entry of the block list, so
decoding uses the later entry version, size and offset on duplicates. -/
theorem block_map_lookup_keeps_last (bs : List BlockInfo) (k : String) :
    dictGet? (buildBlockMap bs) k = lastWithName k bs := by
  unfold buildBlockMap
  rw [dictGet?_fold]
  cases lastWithName k bs <;> rfl

/-! ### Claim C1 -/

/-- C1 (counterexample): on this concrete buffer the map yields a
SupParams descriptor with offset 34 and size 2, yet the SupParams decoder
reads the seven strings that extend to the end of the 48-byte buffer and
returns successfully with its cursor at 48, far beyond offset + size = 36. -/
theorem supparams_reads_past_block_end :
    parse_map ⟨c1data, 0⟩ = .ok ([⟨"Map", 100, 34⟩, ⟨"SupParams", 100, 2⟩], ⟨c1data, 34⟩)
  ∧ assignOffsets 0 [⟨"Map", 100, 34⟩, ⟨"SupParams", 100, 2⟩]
      = [⟨"Map", 100, 34, 0⟩, ⟨"SupParams", 100, 2, 34⟩]
  ∧ (parse_sup_params ⟨c1data, 34⟩ 100 (34 + 2)).2.pos = 48
  ∧ ¬ ((parse_sup_params ⟨c1data, 34⟩ 100 (34 + 2)).2.pos ≤ 34 + 2) := by decide

/-- C1 (amended): the per-block decoders do not bound their reads by
`offset + size`; a successful decode may leave the cursor beyond the block
end.  Reads are bounded by the buffer instead: the SupParams decoder, for
one, always finishes with cursor at most one past the buffer length. -/
theorem parse_sup_params_buffer_bound (r : SORReader) (version block_end : Nat) :
    (parse_sup_params r version block_end).2.pos ≤ r.data.length + 1 := by
  simp only [parse_sup_params, read_string]
  exact Nat.succ_le_succ (strEnd_le _ _)

/-! ### Claim C10 -/

theorem mapLoop_no_fuelOut (limit : Nat) :
    ∀ (fuel : Nat) (r : SORReader) (acc : List BlockEntry),
      limit ≤ r.pos + fuel → mapLoop limit fuel r acc ≠ .error .fuelOut := by
  intro fuel
  induction fuel with
  | zero =>
    intro r acc h
    unfold mapLoop
    rw [if_neg (by omega)]
    simp
  | succ fuel ih =>
    intro r acc h
    unfold mapLoop
    split
    case isFalse => simp
    case isTrue hlt =>
      simp only [read_string, bind, Except.bind]
      cases h16 : read_uint16 ⟨r.data, strEnd r.data r.pos + 1⟩ with
      | error e =>
        have he := read_uint16_error_eq h16
        simp [he]
      | ok p =>
        obtain ⟨v16, r2⟩ := p
        dsimp only
        cases h32 : read_uint32 r2 with
        | error e =>
          have he := read_uint32_error_eq h32
          simp [he]
        | ok q =>
          obtain ⟨v32, r3⟩ := q
          dsimp only
          apply ih
          obtain ⟨hd2, hp2, hb2⟩ := read_uint16_ok_pos h16
          obtain ⟨hd3, hp3, hb3⟩ := read_uint32_ok_pos h32
          simp only at hd2 hp2 hb2
          rcases strEnd_cases r.data r.pos with hc | ⟨he, hlen⟩
          · omega
          · rw [he] at hb2
            omega

/-- C10: the map decoder terminates on every finite buffer, whatever the
declared `nbytes`: each loop iteration either strictly advances the cursor
(string read plus six fixed bytes) or fails with a truncation error, so
the fuel supplied by `parse_map` can never run out and the `fuelOut`
sentinel is unreachable. -/
theorem parse_map_terminates (r : SORReader) : parse_map r ≠ .error .fuelOut := by
  unfold parse_map
  simp only [bind, Except.bind]
  cases h1 : read_uint16 r with
  | error e =>
    have he := read_uint16_error_eq h1
    simp [he]
  | ok p =>
    obtain ⟨version, r1⟩ := p
    dsimp only
    cases h2 : read_uint32 r1 with
    | error e =>
      have he := read_uint32_error_eq h2
      simp [he]
    | ok q =>
      obtain ⟨nbytes, r2⟩ := q
      dsimp only
      obtain ⟨hd1, hp1, hb1⟩ := read_uint16_ok_pos h1
      obtain ⟨hd2, hp2, hb2⟩ := read_uint32_ok_pos h2
      split
      case isTrue =>
        simp only [bind, Except.bind, pure, Except.pure]
        cases h3 : read_uint16 r2 with
        | error e =>
          have he := read_uint16_error_eq h3
          simp [he]
        | ok w =>
          obtain ⟨nb, r3⟩ := w
          dsimp only
          obtain ⟨hd3, hp3, hb3⟩ := read_uint16_ok_pos h3
          apply mapLoop_no_fuelOut
          omega
      case isFalse =>
        simp only [pure, Except.pure]
        apply mapLoop_no_fuelOut
        omega

/-! ### Claim C5 -/

theorem readOneEvent_distance {version : Nat} {gi : ℚ} {r : SORReader}
    {ev : KeyEvent} {r' : SORReader}
    (h : readOneEvent version gi r = .ok (ev, r')) :
    ev.distance_m = time_to_distance ev.time_of_travel_100ps gi := by
  unfold readOneEvent at h
  simp only [read_string, bind, Except.bind, pure, Except.pure] at h
  repeat' split at h
  all_goals try (cases h)
  all_goals rfl

theorem readEvents_distance (version : Nat) (gi : ℚ) :
    ∀ (n : Nat) (r : SORReader) (evs : List KeyEvent) (r' : SORReader),
      readEvents version gi n r = .ok (evs, r') →
      ∀ ev ∈ evs, ev.distance_m = time_to_distance ev.time_of_travel_100ps gi := by
  intro n
  induction n with
  | zero =>
    intro r evs r' h ev hev
    unfold readEvents at h
    simp only [Except.ok.injEq, Prod.mk.injEq] at h
    rw [← h.1] at hev
    cases hev
  | succ n ih =>
    intro r evs r' h ev hev
    unfold readEvents at h
    simp only [bind, Except.bind, pure, Except.pure] at h
    cases h1 : readOneEvent version gi r with
    | error e => rw [h1] at h; cases h
    | ok p =>
      rw [h1] at h
      obtain ⟨e1, r1⟩ := p
      dsimp only at h
      cases h2 : readEvents version gi n r1 with
      | error e => rw [h2] at h; cases h
      | ok q =>
        rw [h2] at h
        obtain ⟨es, r2⟩ := q
        dsimp only at h
        simp only [Except.ok.injEq, Prod.mk.injEq] at h
        rw [← h.1] at hev
        rcases List.mem_cons.mp hev with hev1 | hev2
        · rw [hev1]
          exact readOneEvent_distance h1
        · exact ih r1 es r2 h2 ev hev2

theorem summaryOrl_events (be : Nat) (res : KeyEventsRes) (r : SORReader) :
    (summaryOrl be res r).1.events = res.events := by
  unfold summaryOrl
  split
  · split <;> rfl
  · rfl

theorem summaryV2_events (version be : Nat) (res : KeyEventsRes) (r : SORReader) :
    (summaryV2 version be res r).1.events = res.events := by
  unfold summaryV2
  split
  · split
    · rfl
    · rw [summaryOrl_events]
  · rw [summaryOrl_events]

theorem summaryMain_events (version be : Nat) (gi : ℚ) (res : KeyEventsRes) (r : SORReader) :
    (summaryMain version be gi res r).1.events = res.events := by
  unfold summaryMain
  split
  · split
    · rfl
    · split
      · rfl
      · split
        · rfl
        · rw [summaryV2_events]
  · rfl

theorem parse_key_events_distance {r : SORReader} {version block_end : Nat} {gi : ℚ}
    {kev : KeyEventsRes} {r' : SORReader}
    (h : parse_key_events r version block_end gi = .ok (kev, r')) :
    ∀ ev ∈ kev.events, ev.distance_m = time_to_distance ev.time_of_travel_100ps gi := by
  unfold parse_key_events at h
  simp only [bind, Except.bind, pure, Except.pure] at h
  cases h1 : read_uint16 r with
  | error e => rw [h1] at h; cases h
  | ok p =>
    rw [h1] at h
    obtain ⟨ne, r1⟩ := p
    dsimp only at h
    cases h2 : readEvents version gi ne r1 with
    | error e => rw [h2] at h; cases h
    | ok q =>
      rw [h2] at h
      obtain ⟨evs, r2⟩ := q
      dsimp only at h
      simp only [Except.ok.injEq] at h
      intro ev hev
      have hkev : kev = (summaryMain version block_end gi {num_events := ne, events := evs} r2).1 := by
        rw [h]
      rw [hkev, summaryMain_events] at hev
      exact readEvents_distance version gi ne r1 evs r2 h2 ev hev

/-- C5: in every successful parse, the group index threaded into the
KeyEvents decoder is the value decoded from FxdParams when that block
decoded successfully with a positive group index, and the 1.46850 default
when FxdParams is absent, errored, or non-positive; and every decoded
event carries `distance_m` computed from exactly that group index. -/
theorem parse_sor_group_index_threading (data : List Nat) (rec : SORRecord)
    (h : parse_sor data = .ok rec) :
    (∀ acq, rec.acquisition = some (.ok acq) → 0 < acq.group_index →
        chosen_group_index rec.acquisition = acq.group_index)
  ∧ (∀ acq, rec.acquisition = some (.ok acq) → acq.group_index ≤ 0 →
        chosen_group_index rec.acquisition = 146850 / 100000)
  ∧ (rec.acquisition = none → chosen_group_index rec.acquisition = 146850 / 100000)
  ∧ (∀ e, rec.acquisition = some (.error e) →
        chosen_group_index rec.acquisition = 146850 / 100000)
  ∧ (∀ kev, rec.key_events = some (.ok kev) →
        ∀ ev ∈ kev.events,
          ev.distance_m =
            time_to_distance ev.time_of_travel_100ps (chosen_group_index rec.acquisition)) := by
  refine ⟨?_, ?_, ?_, ?_, ?_⟩
  · intro acq ha hpos
    rw [ha]
    simp only [chosen_group_index]
    rw [if_pos ⟨fun h0 => by rw [h0] at hpos; exact lt_irrefl 0 hpos, hpos⟩]
  · intro acq ha hle
    rw [ha]
    simp only [chosen_group_index]
    rw [if_neg (fun hc => absurd hc.2 (not_lt.mpr hle))]
  · intro ha
    rw [ha]
    rfl
  · intro e ha
    rw [ha]
    rfl
  · unfold parse_sor at h
    simp only [bind, Except.bind, pure, Except.pure] at h
    cases hm : parse_map ⟨data, 0⟩ with
    | error e => rw [hm] at h; cases h
    | ok p =>
      rw [hm] at h
      obtain ⟨entries, r0⟩ := p
      dsimp only at h
      simp only [Except.ok.injEq] at h
      subst h
      intro kev hk
      dsimp only at hk ⊢
      cases hB : dictGet? (buildBlockMap (assignOffsets 0 entries)) "KeyEvents" with
      | none => rw [hB] at hk; cases hk
      | some b =>
        rw [hB] at hk
        rw [Option.map_some'] at hk
        simp only [Option.some.injEq] at hk
        cases hK : parse_key_events (seek ⟨data, 0⟩ b.offset) b.version (b.offset + b.size)
            (chosen_group_index ((dictGet? (buildBlockMap (assignOffsets 0 entries)) "FxdParams").map
              fun b => (parse_fixed_params (seek ⟨data, 0⟩ b.offset) b.version (b.offset + b.size)).map Prod.fst)) with
        | error e =>
          rw [hK] at hk
          simp [Except.map] at hk
        | ok q =>
          rw [hK] at hk
          obtain ⟨k1, rk⟩ := q
          simp only [Except.map, Option.some.injEq, Except.ok.injEq] at hk
          rw [← hk]
          exact parse_key_events_distance hK

/-- C5 (witness): the threading theorem applied to the minimal one-block
file, whose record has no acquisition slot, giving the default. -/
theorem parse_sor_group_index_threading_witness :
    chosen_group_index none = 146850 / 100000 := by
  have h : parse_sor c5data =
      .ok {file_size_bytes := 18, blocks_found := ["Map"], equipment := none,
           general := none, acquisition := none, key_events := none,
           data_points := none} := by decide
  exact (parse_sor_group_index_threading c5data _ h).2.2.1 rfl
